import Mathlib

/-!
Shallow embedding of `scripts/server_library_docs_sync.py`, a documentation
snapshot synchronization script.  Python strings are modelled as `String`
(Unicode code points, compared exactly as Python compares them), file system
state as an association list from paths to contents, machine-independent
effects (network fetches, today's date) as explicit parameters, and Python
exceptions as `Except String`.
-/

namespace DocsSync

/-! ### Character and string helpers shared by the embedded functions -/

/-- ASCII decimal digit test, as used by `int()` and `date.fromisoformat`. -/
def isDigitCh (c : Char) : Bool := 48 ≤ c.toNat && c.toNat ≤ 57

/-- Numeric value of an ASCII digit. -/
def digitVal (c : Char) : Nat := c.toNat - 48

/-- The ASCII digit character for `d < 10`. -/
def digitCh (d : Nat) : Char := Char.ofNat (48 + d)

/-- Python `int(s)` restricted to nonempty all-digit strings, the only shape a
version component or date component takes here.  (Python `int` additionally
accepts signs, surrounding whitespace and underscores, which cannot occur in
the strings this script feeds it a match for; on any other string it raises
`ValueError`, modelled by `none`.) -/
def parseDecNat (l : List Char) : Option Nat :=
  if l ≠ [] ∧ l.all isDigitCh then
    some (l.foldl (fun acc c => acc * 10 + digitVal c) 0)
  else none

/-- Python `s.split(sep)` for a single-character separator: splits on every
occurrence, keeping empty segments (`"".split(".") == [""]`). -/
def splitOnChar (c : Char) : List Char → List (List Char)
  | [] => [[]]
  | x :: xs =>
    if x = c then [] :: splitOnChar c xs
    else
      match splitOnChar c xs with
      | [] => [[x]]
      | h :: t => (x :: h) :: t

/-- Python `s.split(sep, 1)` for a single-character separator: the part before
the first occurrence, and `some` remainder exactly when the separator occurs. -/
def split1Char (c : Char) : List Char → List Char × Option (List Char)
  | [] => ([], none)
  | x :: xs =>
    if x = c then ([], some xs)
    else
      let r := split1Char c xs
      (x :: r.1, r.2)

/-- Python `str.join` with separator `sep`. -/
def pyJoin (sep : String) : List String → String
  | [] => ""
  | [s] => s
  | s :: t :: rest => s ++ sep ++ pyJoin sep (t :: rest)

/-- `str.join` at the character-list level, for single-character separators. -/
def joinChar (c : Char) : List (List Char) → List Char
  | [] => []
  | [s] => s
  | s :: t :: rest => s ++ c :: joinChar c (t :: rest)

/-- Python `s.strip()` on the whitespace-free-in-the-middle lines it is applied
to here: drop leading and trailing ASCII whitespace. -/
def isSpaceCh (c : Char) : Bool := c = ' ' || c = '\t' || c = '\n' || c = '\r'

def stripChars (l : List Char) : List Char :=
  ((l.dropWhile isSpaceCh).reverse.dropWhile isSpaceCh).reverse

/-- `pat` is a leading pattern of `l`. -/
def leadsWith : List Char → List Char → Bool
  | [], _ => true
  | _ :: _, [] => false
  | p :: ps, x :: xs => p = x && leadsWith ps xs

/-- Python `s.splitlines()` for strings whose only line break is `"\n"`:
split on newlines, a trailing newline producing no extra empty line. -/
def pySplitlines (l : List Char) : List (List Char) :=
  if l = [] then []
  else if l.getLast? = some '\n' then (splitOnChar '\n' l).dropLast
  else splitOnChar '\n' l

/-- Decimal digits of `n`, most significant first; structural fuel recursion so
that concrete evaluation reduces in the kernel. -/
def decDigitsAux : Nat → Nat → List Char
  | 0, _ => []
  | fuel + 1, n =>
    if n < 10 then [digitCh n]
    else decDigitsAux fuel (n / 10) ++ [digitCh (n % 10)]

/-- Python `str(n)` for a natural number. -/
def natToDec (n : Nat) : String := String.mk (decDigitsAux (n + 1) n)

/-- Python `str(i)` / f-string rendering of a possibly negative integer. -/
def intToDec (i : Int) : String :=
  if i < 0 then "-" ++ natToDec i.natAbs else natToDec i.natAbs

/-! ### The library catalog (`LIBRARIES`) -/

/-- A tracked library: directory slug, crate name in the lockfile, and the
path segment used for the rustdoc URL.  (`@dataclass(frozen=True) Library`.) -/
structure Library where
  slug : String
  crate : String
  rustdoc_path : String
deriving DecidableEq, Repr

/-- The static catalog of tracked libraries. -/
def LIBRARIES : List Library :=
  [ ⟨"loco-rs", "loco-rs", "loco_rs"⟩,
    ⟨"axum", "axum", "axum"⟩,
    ⟨"sea-orm", "sea-orm", "sea_orm"⟩,
    ⟨"async-graphql", "async-graphql", "async_graphql"⟩,
    ⟨"tokio", "tokio", "tokio"⟩,
    ⟨"serde", "serde", "serde"⟩,
    ⟨"tracing", "tracing", "tracing"⟩,
    ⟨"utoipa", "utoipa", "utoipa"⟩ ]

/-! ### `semver_key` and the ordering `sorted` uses -/

/-- The type of `semver_key` results: a Python 4-tuple compared
lexicographically.  The pre-release component is kept as its code-point
sequence, since Python compares strings exactly by code points. -/
abbrev SemKey := Nat ×ₗ Nat ×ₗ Nat ×ₗ List Char

/-- Build a `SemKey` from the three numeric parts and the pre-release text. -/
def mkKey (a b c : Nat) (s : List Char) : SemKey := toLex (a, toLex (b, toLex (c, s)))

/-- `semver_key(version)`: split off everything after the first `-` as the
pre-release suffix, parse the dot-separated components of the rest as
integers, zero-pad to three components, and pair with the suffix (empty when
absent).  `none` models the `ValueError` Python raises on a non-numeric
component.  Components beyond the third are parsed but then ignored by the
tuple indexing, exactly as in the source. -/
def semverKey (version : String) : Option SemKey :=
  let ms := split1Char '-' version.data
  match (splitOnChar '.' ms.1).mapM parseDecNat with
  | none => none
  | some parts =>
    let padded := parts ++ List.replicate (3 - parts.length) 0
    some (mkKey (padded.getD 0 0) (padded.getD 1 0) (padded.getD 2 0)
      (ms.2.getD []))

/-- The comparison `sorted(candidates, key=semver_key)` sorts by.  Where the
sort actually runs both keys are defined (Python would have raised while
computing the keys otherwise); `none` keys are placed first so the relation
stays total. -/
def verLEb (a b : String) : Bool :=
  match semverKey a, semverKey b with
  | some ka, some kb => decide (ka ≤ kb)
  | none, _ => true
  | some _, none => false

/-- `sorted(candidates, key=semver_key)`.  Python's sort is stable, and a
stable sort with respect to a total preorder has a unique result, so stable
insertion sort computes exactly it. -/
def pySortedByKey (l : List String) : List String :=
  List.insertionSort (fun a b => verLEb a b = true) l

/-! ### The lockfile scanner (`parse_cargo_lock_versions`) -/

/-- The literal part of the package regex before the name capture. -/
def litPkgHead : List Char := ("[[package]]\nname = " ++ "\"").data

/-- The literal part of the package regex between the captures. -/
def litPkgMid : List Char := ("\"" ++ "\nversion = " ++ "\"").data

/-- Match the literal `pat` at the head of `l`, returning the rest. -/
def dropLit : List Char → List Char → Option (List Char)
  | [], l => some l
  | _ :: _, [] => none
  | p :: ps, x :: xs => if x = p then dropLit ps xs else none

/-- One attempt of the regex
`\[\[package\]\]\nname = "([^"]+)"\nversion = "([^"]+)"` at the current
position: both captures are forced to the maximal nonempty run of non-quote
characters (the character class excludes `"`, so the regex engine cannot
backtrack into a different split). -/
def matchPackageAt (l : List Char) : Option (String × String × List Char) :=
  match dropLit litPkgHead l with
  | none => none
  | some r1 =>
    let name := r1.takeWhile (fun c => c ≠ '"')
    if name = [] then none
    else
      match dropLit litPkgMid (r1.drop name.length) with
      | none => none
      | some r2 =>
        let ver := r2.takeWhile (fun c => c ≠ '"')
        if ver = [] then none
        else
          match r2.drop ver.length with
          | '"' :: rest => some (String.mk name, String.mk ver, rest)
          | _ => none

/-- `re.finditer` of the package pattern: scan left to right, resume after
each match.  Fuel is the text length; every step consumes at least one
character. -/
def findPackages : Nat → List Char → List (String × String)
  | 0, _ => []
  | fuel + 1, l =>
    match matchPackageAt l with
    | some (n, v, rest) => (n, v) :: findPackages fuel rest
    | none =>
      match l with
      | [] => []
      | _ :: xs => findPackages fuel xs

/-- All `(name, version)` package entries of the lockfile text, in order. -/
def packagesOf (text : String) : List (String × String) :=
  findPackages text.data.length text.data

/-- The version strings the lockfile records for `crate`, in order of
appearance (the `versions` dict built with `setdefault(...).append(...)`). -/
def versionsFor (text : String) (crate : String) : List String :=
  ((packagesOf text).filter (fun p => p.1 = crate)).map (fun p => p.2)

/-- All candidates have a defined key (no `ValueError` during `sorted`). -/
def keyedOk (cands : List String) : Bool := cands.all (fun v => (semverKey v).isSome)

/-- The per-library loop of `parse_cargo_lock_versions`: for each tracked
library in order, look up its candidates, raise if there are none, raise if a
key is malformed (Python raises inside `sorted`), otherwise record the last
element of the sorted candidates. -/
def collectVersions (text : String) : List Library → Except String (List (String × String))
  | [] => .ok []
  | lib :: rest =>
    let candidates := versionsFor text lib.crate
    if candidates.isEmpty then
      .error ("Crate " ++ lib.crate ++ " was not found in Cargo.lock")
    else if keyedOk candidates then
      match collectVersions text rest with
      | .error e => .error e
      | .ok r => .ok ((lib.crate, (pySortedByKey candidates).getLastD "") :: r)
    else
      .error ("invalid version component in candidates for " ++ lib.crate)

/-- `parse_cargo_lock_versions`, over the text of `Cargo.lock`.  (The
existence check and file read happen at the file-system layer in
`syncSnapshot`; the claims about this function concern the extraction and
selection, which depend only on the text.) -/
def parseCargoLockVersions (text : String) : Except String (List (String × String)) :=
  collectVersions text LIBRARIES

/-! ### Dates (`datetime.date`) -/

/-- A value of `datetime.date`. -/
structure Date where
  year : Nat
  month : Nat
  day : Nat
deriving DecidableEq, Repr

/-- Gregorian leap year rule. -/
def isLeapYear (y : Nat) : Bool := y % 4 = 0 && (y % 100 != 0 || y % 400 = 0)

/-- Length of month `m` in year `y`. -/
def daysInMonth (y m : Nat) : Nat :=
  if m = 2 then (if isLeapYear y then 29 else 28)
  else if m = 4 ∨ m = 6 ∨ m = 9 ∨ m = 11 then 30
  else 31

/-- The ranges `datetime.date` enforces at construction, so every `date`
value a Python variable can hold satisfies them. -/
def Date.validb (d : Date) : Bool :=
  1 ≤ d.year && d.year ≤ 9999 && 1 ≤ d.month && d.month ≤ 12 &&
    1 ≤ d.day && d.day ≤ daysInMonth d.year d.month

def Date.Valid (d : Date) : Prop := d.validb = true

/-- Days in the non-leap year before the first of month `m`. -/
def cumDays (m : Nat) : Nat :=
  match m with
  | 1 => 0 | 2 => 31 | 3 => 59 | 4 => 90 | 5 => 120 | 6 => 151
  | 7 => 181 | 8 => 212 | 9 => 243 | 10 => 273 | 11 => 304 | _ => 334

/-- `date.toordinal()`: day number in the proleptic Gregorian calendar with
0001-01-01 as day 1; date subtraction is the difference of ordinals. -/
def Date.toOrdinal (d : Date) : Nat :=
  let y := d.year - 1
  365 * y + y / 4 - y / 100 + y / 400 + cumDays d.month +
    (if 2 < d.month ∧ isLeapYear d.year then 1 else 0) + d.day

/-- `(today - snap).days`: the exact signed difference in days. -/
def ageDays (today snap : Date) : Int := (today.toOrdinal : Int) - (snap.toOrdinal : Int)

/-- Two-digit zero-padded decimal (months and days are at most 31). -/
def pad2 (n : Nat) : String := String.mk [digitCh (n / 10), digitCh (n % 10)]

/-- Four-digit zero-padded decimal (years here are between 1 and 9999). -/
def pad4 (n : Nat) : String :=
  String.mk [digitCh (n / 1000), digitCh (n / 100 % 10), digitCh (n / 10 % 10), digitCh (n % 10)]

/-- `date.isoformat()`: `YYYY-MM-DD`. -/
def Date.iso (d : Date) : String := pad4 d.year ++ "-" ++ pad2 d.month ++ "-" ++ pad2 d.day

/-- `date.fromisoformat` on the `YYYY-MM-DD` shape, the only shape this
script ever writes: four digits, dash, two digits, dash, two digits, then the
calendar validity check the `date` constructor performs.  Anything else
raises, modelled by `none`.  (Python 3.11+ also accepts other ISO-8601
shapes, e.g. `YYYYMMDD`; none of them can be produced by `write_version`.) -/
def dateFromIso (l : List Char) : Option Date :=
  match l with
  | [y1, y2, y3, y4, s1, m1, m2, s2, d1, d2] =>
    if isDigitCh y1 && isDigitCh y2 && isDigitCh y3 && isDigitCh y4 && s1 = '-' &&
       isDigitCh m1 && isDigitCh m2 && s2 = '-' && isDigitCh d1 && isDigitCh d2 then
      let y := ((digitVal y1 * 10 + digitVal y2) * 10 + digitVal y3) * 10 + digitVal y4
      let m := digitVal m1 * 10 + digitVal m2
      let dd := digitVal d1 * 10 + digitVal d2
      let date : Date := ⟨y, m, dd⟩
      if date.validb then some date else none
    else none
  | _ => none

/-! ### File-system model and path constants -/

/-- File system contents, as path (relative to the repository root) ↦ text. -/
abbrev FS := List (String × String)

def fsGet (fs : FS) (p : String) : Option String := fs.lookup p

/-- `write_text`: create or overwrite the file (the `mkdir` of parents has no
observable effect in this path ↦ contents view). -/
def fsSet (fs : FS) (p : String) (text : String) : FS :=
  (p, text) :: fs.filter (fun e => e.1 ≠ p)

/-- `path.exists()`, with the (unchanged) file system threaded through. -/
def fsExistsSt (fs : FS) (p : String) : Bool × FS := ((fsGet fs p).isSome, fs)

/-- Apply a list of `write_text` effects in order. -/
def applyWrites (fs : FS) (ws : List (String × String)) : FS :=
  ws.foldl (fun acc w => fsSet acc w.1 w.2) fs

def SNAPSHOT_DIR : String := "apps/server/docs/upstream-libraries"
def VERSION_FILE : String := SNAPSHOT_DIR ++ "/VERSION"
def INDEX_FILE : String := SNAPSHOT_DIR ++ "/README.md"

def WARNING_DAYS : Nat := 30
def FAIL_DAYS : Nat := 60

/-- The snapshot directory of one library. -/
def libDir (lib : Library) : String := SNAPSHOT_DIR ++ "/" ++ lib.slug

/-! ### JSON rendering (`json.dumps(..., indent=2, ensure_ascii=False)`) -/

/-- A JSON value occurring in the metadata object: a string or a boolean. -/
inductive JVal where
  | str (s : String)
  | bool (b : Bool)
deriving DecidableEq, Repr

def hexDigitCh (n : Nat) : Char := if n < 10 then digitCh n else Char.ofNat (97 + (n - 10))

/-- JSON string escaping with `ensure_ascii=False`: quote, backslash and
control characters are escaped, everything else is kept verbatim. -/
def jsonEscapeChar (c : Char) : List Char :=
  if c = '"' then ['\\', '"']
  else if c = '\\' then ['\\', '\\']
  else if c = '\n' then ['\\', 'n']
  else if c = '\r' then ['\\', 'r']
  else if c = '\t' then ['\\', 't']
  else if c.toNat < 32 then ['\\', 'u', '0', '0', hexDigitCh (c.toNat / 16), hexDigitCh (c.toNat % 16)]
  else [c]

def jsonStr (s : String) : String :=
  "\"" ++ String.mk (s.data.map jsonEscapeChar).flatten ++ "\""

def jvalRender : JVal → String
  | .str s => jsonStr s
  | .bool b => if b then "true" else "false"

/-- `json.dumps(metadata, indent=2, ensure_ascii=False) + "\n"` for a flat
object with at least one key, keys in insertion order. -/
def jsonRender (obj : List (String × JVal)) : String :=
  "\x7b\n" ++ pyJoin ",\n" (obj.map (fun kv => "  " ++ jsonStr kv.1 ++ ": " ++ jvalRender kv.2)) ++
    "\n\x7d\n"

/-! ### `sync_library`, `write_version`, `write_index`, `sync_snapshot` -/

def docsRsCrateUrl (lib : Library) (version : String) : String :=
  "https://docs.rs/crate/" ++ lib.crate ++ "/" ++ version

def docsRsRustdocUrl (lib : Library) (version : String) : String :=
  "https://docs.rs/" ++ lib.crate ++ "/" ++ version ++ "/" ++ lib.rustdoc_path ++ "/"

/-- The dict `sync_library` returns for the index. -/
structure SyncRecord where
  slug : String
  crate : String
  version : String
  docs_rs_crate : String
  docs_rs_rustdoc : String
deriving DecidableEq, Repr

/-- Network oracle: for a URL, the result of `try_download` — a success flag
and either the decoded page body or the stringified `URLError`.
`try_download` catches the error itself, so it never raises. -/
abbrev Net := String → Bool × String

/-- What one `sync_library` call produces: its `write_text` effects in order,
the metadata object, and the returned record. -/
structure LibSyncOut where
  writes : List (String × String)
  metadata : List (String × JVal)
  record : SyncRecord
deriving Repr

/-- The `DOWNLOAD_STATUS.txt` body written when a page failed to download. -/
def downloadStatusText (okc : Bool) (cbody : String) (okr : Bool) (rbody : String) : String :=
  "Unable to download docs.rs pages in this environment.\n" ++
  "crate_page=" ++ (if !okc then cbody else "ok") ++ "\n" ++
  "rustdoc_page=" ++ (if !okr then rbody else "ok") ++ "\n"

/-- `sync_library`: build the two documentation URLs, optionally download
both pages, keep whatever succeeded, record failures in
`DOWNLOAD_STATUS.txt`, and always write `metadata.json` last. -/
def syncLibrary (net : Net) (lib : Library) (version : String) (downloadHtml : Bool) : LibSyncOut :=
  let urlCrate := docsRsCrateUrl lib version
  let urlRustdoc := docsRsRustdocUrl lib version
  let base : List (String × JVal) :=
    [("crate", .str lib.crate), ("version", .str version),
     ("docs_rs_crate", .str urlCrate), ("docs_rs_rustdoc", .str urlRustdoc)]
  let record : SyncRecord := ⟨lib.slug, lib.crate, version, urlCrate, urlRustdoc⟩
  if downloadHtml then
    let rc := net urlCrate
    let rr := net urlRustdoc
    let metadata := base ++ [("downloaded", .bool (rc.1 && rr.1))]
    let writes :=
      (if rc.1 then [(libDir lib ++ "/docsrs-crate.html", rc.2)] else []) ++
      (if rr.1 then [(libDir lib ++ "/docsrs-rustdoc.html", rr.2)] else []) ++
      (if !(rc.1 && rr.1) then
        [(libDir lib ++ "/DOWNLOAD_STATUS.txt", downloadStatusText rc.1 rc.2 rr.1 rr.2)]
       else []) ++
      [(libDir lib ++ "/metadata.json", jsonRender metadata)]
    ⟨writes, metadata, record⟩
  else
    ⟨[(libDir lib ++ "/metadata.json", jsonRender base)], base, record⟩

/-- The sync mode recorded in the marker file. -/
def modeName (downloadHtml : Bool) : String :=
  if downloadHtml then "docsrs-html" else "docsrs-links"

/-- The content `write_version` writes to the `VERSION` marker file. -/
def versionFileContent (snapshotDate : Date) (downloadHtml : Bool) : String :=
  pyJoin "\n"
    [ "# Server library upstream docs snapshot metadata",
      "snapshot_date=" ++ snapshotDate.iso,
      "source=" ++ modeName downloadHtml,
      "" ]

/-- One table row of the Markdown index. -/
def indexRow (row : SyncRecord) : String :=
  "| `" ++ row.crate ++ "` | `" ++ row.version ++ "` | [crate](" ++ row.docs_rs_crate ++
  ") | [rustdoc](" ++ row.docs_rs_rustdoc ++ ") | `apps/server/docs/upstream-libraries/" ++
  row.slug ++ "/metadata.json` |"

def modeNote (downloadHtml : Bool) : String :=
  if downloadHtml then "Снапшот включает HTML-копии `docsrs-*.html` (если сеть доступна)."
  else "Снапшот содержит актуальные версии и прямые ссылки на docs.rs без скачивания HTML."

/-- The content `write_index` writes to `README.md`. -/
def indexContent (snapshotDate : Date) (records : List SyncRecord) (downloadHtml : Bool) : String :=
  let rows := pyJoin "\n" (records.map indexRow)
  "# Upstream snapshots for server core libraries\n\n" ++
  "Этот каталог фиксирует **свежие ссылки на документацию** по ключевым библиотекам сервера.\n\n" ++
  "- Источник версий: `Cargo.lock`\n" ++
  "- Дата snapshot: `" ++ snapshotDate.iso ++ "`\n" ++
  "- Обновление: `make docs-sync-server-libs`\n" ++
  "- Проверка свежести: `make docs-check-server-libs`\n" ++
  "- Режим: `" ++ modeNote downloadHtml ++ "`\n\n" ++
  "## Текущие версии и ссылки\n\n" ++
  "| Crate | Version (`Cargo.lock`) | Docs.rs crate page | Rustdoc index | Local metadata |\n" ++
  "|---|---:|---|---|---|\n" ++
  rows ++ "\n\n" ++
  "Для попытки скачать HTML-копии docs.rs используйте:\n\n" ++
  "```bash\npython3 scripts/server_library_docs_sync.py sync --download-html\n```\n"

/-- `sync_snapshot`: read versions from the lockfile (`none` models a missing
`Cargo.lock`), sync every tracked library in order, then write the marker and
the index.  Returns every `write_text` effect in order, or the propagated
error.  `parse_cargo_lock_versions` returns an entry for every tracked
library (proved below), so the lookup default is never taken. -/
def syncSnapshot (cargoText : Option String) (today : Date) (net : Net) (downloadHtml : Bool) :
    Except String (List (String × String)) :=
  match cargoText with
  | none => .error "Cargo.lock not found"
  | some text =>
    match parseCargoLockVersions text with
    | .error e => .error e
    | .ok versions =>
      let outs := LIBRARIES.map
        (fun lib => syncLibrary net lib ((versions.lookup lib.crate).getD "") downloadHtml)
      .ok ((outs.map LibSyncOut.writes).flatten ++
        [(VERSION_FILE, versionFileContent today downloadHtml),
         (INDEX_FILE, indexContent today (outs.map LibSyncOut.record) downloadHtml)])

/-! ### `parse_snapshot_date` and `check_snapshot` -/

/-- The loop of `parse_snapshot_date`: first stripped line that starts with
`snapshot_date=`, value after the first `=`, stripped and parsed as a date. -/
def findSnapshotDate : List (List Char) → Except String Date
  | [] => .error "snapshot_date key not found"
  | l :: rest =>
    let line := stripChars l
    if leadsWith "snapshot_date=".data line then
      match dateFromIso (stripChars ((split1Char '=' line).2.getD [])) with
      | some d => .ok d
      | none => .error "Invalid isoformat string"
    else findSnapshotDate rest

/-- `parse_snapshot_date` given the marker file's text. -/
def parseSnapshotDate (raw : String) : Except String Date :=
  findSnapshotDate (pySplitlines raw.data)

/-- `parse_snapshot_date` at the file-system level, threading the (unchanged)
file system through to make its effects explicit. -/
def parseSnapshotDateSt (fs : FS) : Except String Date × FS :=
  match fsGet fs VERSION_FILE with
  | none => (.error ("Missing snapshot metadata file: " ++ VERSION_FILE), fs)
  | some raw => (parseSnapshotDate raw, fs)

/-- The missing-artifact loop of `check_snapshot`, threading the file system
through each `path.exists()` call. -/
def missingLoop : List Library → FS → List String × FS
  | [], fs => ([], fs)
  | lib :: rest, fs =>
    let p := libDir lib ++ "/metadata.json"
    let e := fsExistsSt fs p
    let ms := missingLoop rest e.2
    (if e.1 then ms.1 else p :: ms.1, ms.2)

/-- `check_snapshot`: parse the snapshot date (exceptions propagate), collect
missing per-library metadata files, and apply the age thresholds.  Returns
the function result (or escaped exception), the printed lines in order, and
the threaded file system. -/
def checkSnapshotSt (today : Date) (fs : FS) : (Except String Nat × List String) × FS :=
  let pr := parseSnapshotDateSt fs
  match pr.1 with
  | .error e => ((.error e, []), pr.2)
  | .ok snapshotDate =>
    let age : Int := ageDays today snapshotDate
    let ml := missingLoop LIBRARIES pr.2
    if ml.1 ≠ [] then
      ((.ok 1, "::error::Missing server library snapshot files:" ::
        ml.1.map (fun item => " - " ++ item)), ml.2)
    else
      let out1 := "Server library docs snapshot date: " ++ snapshotDate.iso
      let out2 := "Snapshot age: " ++ intToDec age ++ " day(s)"
      if (FAIL_DAYS : Int) < age then
        ((.ok 1, [out1, out2,
          "::error::Server library docs snapshot is older than " ++ natToDec FAIL_DAYS ++
          " days. Run `make docs-sync-server-libs`."]), ml.2)
      else if (WARNING_DAYS : Int) < age then
        ((.ok 0, [out1, out2,
          "::warning::Server library docs snapshot is older than " ++ natToDec WARNING_DAYS ++
          " days. Please refresh with `make docs-sync-server-libs`."]), ml.2)
      else
        ((.ok 0, [out1, out2]), ml.2)

/-- The process exit code of `... check`: the value `check_snapshot` returns,
or 1 when the exception escapes `main` (CPython exits with status 1 on an
unhandled exception). -/
def checkExitCode (today : Date) (fs : FS) : Nat :=
  match (checkSnapshotSt today fs).1.1 with
  | .ok n => n
  | .error _ => 1

/-- A `::warning::` line was printed. -/
def emitsWarning (out : List String) : Bool :=
  out.any (fun l => leadsWith "::warning::".data l.data)

/-! ### Semantic-version precedence, following the spec's words, for
comparison with the ordering the code actually uses -/

/-- SemVer comparison of one pre-release identifier: numeric identifiers
compare numerically and are below alphanumeric ones, alphanumeric ones
compare lexically. -/
def specIdentLT (a b : List Char) : Bool :=
  match parseDecNat a, parseDecNat b with
  | some x, some y => decide (x < y)
  | some _, none => true
  | none, some _ => false
  | none, none => decide (a < b)

/-- SemVer comparison of dot-separated pre-release identifier lists: earlier
identifiers decide; a strict prefix is below. -/
def specIdentsLT : List (List Char) → List (List Char) → Bool
  | [], [] => false
  | [], _ :: _ => true
  | _ :: _, [] => false
  | a :: as, b :: bs => specIdentLT a b || (a = b && specIdentsLT as bs)

/-- Modelled from the spec: "ordered by semantic-version precedence ...
a pre-release version such as 1.0.0-alpha is ordered below the corresponding
release 1.0.0".  `a` is strictly below `b`: the numeric triples compare
numerically; at an equal triple a pre-release is below the corresponding
release; two pre-releases compare per SemVer by their identifiers. -/
def specSemverLT (a b : String) : Bool :=
  let pa := split1Char '-' a.data
  let pb := split1Char '-' b.data
  let ta := (splitOnChar '.' pa.1).map (fun p => (parseDecNat p).getD 0)
  let tb := (splitOnChar '.' pb.1).map (fun p => (parseDecNat p).getD 0)
  if ta = tb then
    match pa.2, pb.2 with
    | none, _ => false
    | some _, none => true
    | some sa, some sb => specIdentsLT (splitOnChar '.' sa) (splitOnChar '.' sb)
  else decide (ta < tb)

/-- `v` is the maximum of `cands` under semantic-version precedence: it
occurs there and nothing there is strictly above it. -/
def isSemverMaxOf (v : String) (cands : List String) : Prop :=
  v ∈ cands ∧ ∀ w ∈ cands, specSemverLT v w = false

/-! ### Concrete inputs used by counterexamples and witnesses -/

/-- A minimal lockfile entry in exactly the shape the package pattern
matches. -/
def pkgEntry (n v : String) : String :=
  "[[package]]\nname = " ++ "\"" ++ n ++ "\"" ++ "\nversion = " ++ "\"" ++ v ++ "\"" ++ "\n\n"

/-- A concrete lockfile with every tracked crate present once, except that
`tokio` is recorded at both the release `1.0.0` and the pre-release
`1.0.0-alpha`. -/
def sampleLock : String := String.join
  [ pkgEntry "loco-rs" "0.3.1", pkgEntry "axum" "0.7.5", pkgEntry "sea-orm" "1.0.0",
    pkgEntry "async-graphql" "7.0.0", pkgEntry "tokio" "1.0.0", pkgEntry "tokio" "1.0.0-alpha",
    pkgEntry "serde" "1.0.200", pkgEntry "tracing" "0.1.40", pkgEntry "utoipa" "4.2.0" ]

/-- A concrete lockfile in which the tracked crate `tokio` has no package
entry at all. -/
def sampleLockMissingTokio : String := String.join
  [ pkgEntry "loco-rs" "0.3.1", pkgEntry "axum" "0.7.5", pkgEntry "sea-orm" "1.0.0",
    pkgEntry "async-graphql" "7.0.0", pkgEntry "serde" "1.0.200", pkgEntry "tracing" "0.1.40",
    pkgEntry "utoipa" "4.2.0" ]

/-- A concrete file system holding a parseable marker and the metadata file
of every tracked library. -/
def sampleFS (snapshotDate : Date) : FS :=
  (VERSION_FILE, versionFileContent snapshotDate false) ::
    LIBRARIES.map (fun lib => (libDir lib ++ "/metadata.json", "x"))

/-- A network oracle on which every fetch fails (the `URLError` case of
`try_download`). -/
def sampleNetFail : Net := fun _ => (false, "<urlopen error [Errno 101] Network is unreachable>")

/-- A write that belongs to some tracked library's snapshot directory. -/
def isLibraryWrite (w : String × String) : Bool :=
  LIBRARIES.any (fun lib => leadsWith (libDir lib ++ "/").data w.1.data)

/-! ## Helper lemmas -/

theorem parseSnapshotDateSt_fs (fs : FS) : (parseSnapshotDateSt fs).2 = fs := by
  cases h : fsGet fs VERSION_FILE <;> simp [parseSnapshotDateSt, h]

theorem missingLoop_fs (libs : List Library) (fs : FS) : (missingLoop libs fs).2 = fs := by
  induction libs with
  | nil => rfl
  | cons lib rest ih => simp [missingLoop, fsExistsSt, ih]

theorem missingLoop_nil_iff (libs : List Library) (fs : FS) :
    (missingLoop libs fs).1 = [] ↔
      ∀ lib ∈ libs, (fsGet fs (libDir lib ++ "/metadata.json")).isSome = true := by
  induction libs with
  | nil => simp [missingLoop]
  | cons lib rest ih =>
    cases hex : (fsGet fs (libDir lib ++ "/metadata.json")).isSome with
    | false => simp [missingLoop, fsExistsSt, hex]
    | true => simp [missingLoop, fsExistsSt, hex, ih]

theorem leadsWith_append_true {p a : List Char} (b : List Char)
    (h : leadsWith p a = true) : leadsWith p (a ++ b) = true := by
  induction p generalizing a with
  | nil => rfl
  | cons p ps ih =>
    cases a with
    | nil => simp [leadsWith] at h
    | cons x xs =>
      simp only [leadsWith, List.cons_append, Bool.and_eq_true, decide_eq_true_eq] at h ⊢
      exact ⟨h.1, ih h.2⟩

theorem leadsWith_append_false {p a : List Char} (b : List Char)
    (hle : p.length ≤ a.length) (h : leadsWith p a = false) :
    leadsWith p (a ++ b) = false := by
  induction p generalizing a with
  | nil => simp [leadsWith] at h
  | cons p ps ih =>
    cases a with
    | nil => simp at hle
    | cons x xs =>
      simp only [leadsWith, List.cons_append, Bool.and_eq_false_iff,
        decide_eq_false_iff_not] at h ⊢
      rcases h with h | h
      · exact Or.inl h
      · exact Or.inr (ih (by simpa using Nat.le_of_succ_le_succ hle) h)

theorem verLEb_refl (a : String) : verLEb a a = true := by
  simp only [verLEb]
  rcases semverKey a with _ | ka <;> simp

theorem verLEb_trans {a b c : String} (h1 : verLEb a b = true) (h2 : verLEb b c = true) :
    verLEb a c = true := by
  simp only [verLEb] at h1 h2 ⊢
  rcases ha : semverKey a with _ | ka <;> rcases hb : semverKey b with _ | kb <;>
    rcases hc : semverKey c with _ | kc <;> simp_all
  exact le_trans h1 h2

theorem verLEb_total (a b : String) : verLEb a b = true ∨ verLEb b a = true := by
  simp only [verLEb]
  rcases semverKey a with _ | ka <;> rcases semverKey b with _ | kb <;> simp
  exact le_total ka kb

theorem getLastD_mem_of_ne_nil {α : Type _} :
    ∀ (l : List α), l ≠ [] → ∀ d, l.getLastD d ∈ l := by
  intro l
  induction l with
  | nil => intro h; cases h rfl
  | cons a t ih =>
    intro _ d
    rw [List.getLastD_cons]
    cases t with
    | nil => simp [List.getLastD_nil]
    | cons b t' => exact List.mem_cons_of_mem a (ih (by simp) a)

theorem pairwise_le_getLastD {α : Type _} {r : α → α → Prop} (hrefl : ∀ x, r x x) :
    ∀ (l : List α) (d : α), l.Pairwise r → ∀ x ∈ l, r x (l.getLastD d) := by
  intro l
  induction l with
  | nil => intro d _ x hx; cases hx
  | cons a t ih =>
    intro d hp x hx
    rcases List.pairwise_cons.mp hp with ⟨ha, ht⟩
    rw [List.getLastD_cons]
    cases t with
    | nil =>
      simp only [List.mem_singleton] at hx
      subst hx
      simpa [List.getLastD_nil] using hrefl x
    | cons b t' =>
      rcases List.mem_cons.mp hx with rfl | hx'
      · exact ha _ (getLastD_mem_of_ne_nil (b :: t') (by simp) _)
      · exact ih _ ht x hx'

theorem pySortedByKey_perm (l : List String) : List.Perm (pySortedByKey l) l :=
  List.perm_insertionSort _ l

theorem pySortedByKey_ne_nil {l : List String} (h : l ≠ []) : pySortedByKey l ≠ [] := by
  intro h0
  have hp := (pySortedByKey_perm l).symm
  rw [h0] at hp
  exact h hp.eq_nil

/-- The element `sorted(candidates, key=semver_key)[-1]` picks is one of the
candidates. -/
theorem pySortedByKey_getLastD_mem {l : List String} (h : l ≠ []) :
    (pySortedByKey l).getLastD "" ∈ l :=
  (pySortedByKey_perm l).mem_iff.mp
    (getLastD_mem_of_ne_nil (pySortedByKey l) (pySortedByKey_ne_nil h) "")

/-- The element `sorted(candidates, key=semver_key)[-1]` picks is maximal
with respect to the key comparison. -/
theorem pySortedByKey_getLastD_max (l : List String) :
    ∀ w ∈ l, verLEb w ((pySortedByKey l).getLastD "") = true := by
  intro w hw
  haveI htotal : IsTotal String (fun a b => verLEb a b = true) := ⟨verLEb_total⟩
  haveI htrans : IsTrans String (fun a b => verLEb a b = true) :=
    ⟨fun _ _ _ => verLEb_trans⟩
  have hsorted : (pySortedByKey l).Pairwise (fun a b => verLEb a b = true) :=
    List.sorted_insertionSort _ l
  exact pairwise_le_getLastD verLEb_refl (pySortedByKey l) "" hsorted w
    ((pySortedByKey_perm l).mem_iff.mpr hw)

/-- What a successful `parse_cargo_lock_versions` loop guarantees for each
library it covers: a recorded version that occurs among the lockfile
candidates for its crate and is maximal in the key ordering. -/
theorem collectVersions_ok_spec (text : String) :
    ∀ (libs : List Library) (m : List (String × String)),
      collectVersions text libs = .ok m →
      ∀ lib ∈ libs, ∃ v, m.lookup lib.crate = some v ∧
        v ∈ versionsFor text lib.crate ∧
        ∀ w ∈ versionsFor text lib.crate, verLEb w v = true := by
  intro libs
  induction libs with
  | nil => intro m _ lib hlib; cases hlib
  | cons lib0 rest ih =>
    intro m hok lib hlib
    simp only [collectVersions] at hok
    by_cases hempty : (versionsFor text lib0.crate).isEmpty = true
    · rw [if_pos hempty] at hok; cases hok
    · rw [if_neg hempty] at hok
      have hne : versionsFor text lib0.crate ≠ [] := by
        simpa [List.isEmpty_iff] using hempty
      by_cases hkeys : keyedOk (versionsFor text lib0.crate) = true
      · rw [if_pos hkeys] at hok
        cases hrest : collectVersions text rest with
        | error e => rw [hrest] at hok; cases hok
        | ok r =>
          rw [hrest] at hok
          injection hok with hok
          subst hok
          rcases List.mem_cons.mp hlib with rfl | hmem
          · exact ⟨(pySortedByKey (versionsFor text lib.crate)).getLastD "",
              by simp, pySortedByKey_getLastD_mem hne, pySortedByKey_getLastD_max _⟩
          · rcases ih r hrest lib hmem with ⟨v, hv, hvmem, hvmax⟩
            by_cases hcr : lib.crate = lib0.crate
            · exact ⟨(pySortedByKey (versionsFor text lib0.crate)).getLastD "",
                by simp [hcr], by rw [hcr]; exact pySortedByKey_getLastD_mem hne,
                by rw [hcr]; exact pySortedByKey_getLastD_max _⟩
            · refine ⟨v, ?_, hvmem, hvmax⟩
              have hbeq : (lib.crate == lib0.crate) = false := by simpa using hcr
              simp [List.lookup_cons, hbeq, hv]
      · rw [if_neg hkeys] at hok; cases hok

/-- The `parse_cargo_lock_versions` loop raises when a tracked crate has no
candidates. -/
theorem collectVersions_error_of_missing (text : String) :
    ∀ (libs : List Library) (lib : Library), lib ∈ libs →
      versionsFor text lib.crate = [] →
      ∃ e, collectVersions text libs = .error e := by
  intro libs
  induction libs with
  | nil => intro lib h; cases h
  | cons lib0 rest ih =>
    intro lib hlib hmiss
    simp only [collectVersions]
    by_cases hempty : (versionsFor text lib0.crate).isEmpty = true
    · exact ⟨_, by rw [if_pos hempty]⟩
    · rw [if_neg hempty]
      rcases List.mem_cons.mp hlib with rfl | hmem
      · exact absurd (by simp [hmiss]) hempty
      · by_cases hkeys : keyedOk (versionsFor text lib0.crate) = true
        · rw [if_pos hkeys]
          rcases ih lib hmem hmiss with ⟨e, he⟩
          rw [he]
          exact ⟨e, rfl⟩
        · rw [if_neg hkeys]
          exact ⟨_, rfl⟩

theorem emitsWarning_of_mem {out : List String} {l : String}
    (hmem : l ∈ out) (h : leadsWith "::warning::".data l.data = true) :
    emitsWarning out = true := by
  simp only [emitsWarning, List.any_eq_true]
  exact ⟨l, hmem, h⟩

theorem emitsWarning_false {out : List String}
    (h : ∀ l ∈ out, leadsWith "::warning::".data l.data = false) :
    emitsWarning out = false := by
  simp only [emitsWarning, List.any_eq_false]
  intro l hl
  simp [h l hl]

theorem checkExitCode_of_missing (today : Date) (fs : FS) (lib : Library)
    (hlib : lib ∈ LIBRARIES)
    (h : fsGet fs (libDir lib ++ "/metadata.json") = none) :
    checkExitCode today fs = 1 := by
  unfold checkExitCode checkSnapshotSt
  cases hp : (parseSnapshotDateSt fs).1 with
  | error e => simp [hp]
  | ok snap =>
    have hml : ¬ (missingLoop LIBRARIES (parseSnapshotDateSt fs).2).1 = [] := by
      rw [parseSnapshotDateSt_fs]
      intro hnil
      have := (missingLoop_nil_iff LIBRARIES fs).mp hnil lib hlib
      simp [h] at this
    simp [hp, hml]

/-! ## Claims -/

/-- **C10**: the check command is read-only: whatever file system it runs
against and whatever it returns, the file-system state `check_snapshot`
threads through is exactly the input state. -/
theorem C10_check_read_only (today : Date) (fs : FS) :
    (checkSnapshotSt today fs).2 = fs := by
  unfold checkSnapshotSt
  cases hp : (parseSnapshotDateSt fs).1 with
  | error e => simp [hp, parseSnapshotDateSt_fs]
  | ok snap =>
    simp only [hp, parseSnapshotDateSt_fs]
    split
    · exact missingLoop_fs LIBRARIES fs
    · split
      · exact missingLoop_fs LIBRARIES fs
      · split
        · exact missingLoop_fs LIBRARIES fs
        · exact missingLoop_fs LIBRARIES fs

/-- **C2**: the check command passes (exit code 0) only if every tracked
library has its `metadata.json` artifact, and if any tracked library's
artifact is missing the process exits with code 1. -/
theorem C2_check_requires_metadata (today : Date) (fs : FS) :
    (checkExitCode today fs = 0 →
      ∀ lib ∈ LIBRARIES, (fsGet fs (libDir lib ++ "/metadata.json")).isSome = true) ∧
    ((∃ lib ∈ LIBRARIES, fsGet fs (libDir lib ++ "/metadata.json") = none) →
      checkExitCode today fs = 1) := by
  constructor
  · intro h0 lib hlib
    cases hex : fsGet fs (libDir lib ++ "/metadata.json") with
    | none => rw [checkExitCode_of_missing today fs lib hlib hex] at h0; cases h0
    | some v => rfl
  · rintro ⟨lib, hlib, hmiss⟩
    exact checkExitCode_of_missing today fs lib hlib hmiss

/-- **C2 witness**: on a file system missing `tokio`'s metadata file, check
exits with code 1. -/
theorem C2_witness :
    checkExitCode ⟨2026, 10, 12⟩ [(VERSION_FILE, versionFileContent ⟨2026, 10, 1⟩ false)] = 1 :=
  (C2_check_requires_metadata ⟨2026, 10, 12⟩ _).2
    ⟨⟨"tokio", "tokio", "tokio"⟩, by decide, by decide⟩

/-- **C3**: with a parseable snapshot date and all metadata artifacts
present, the result is driven by the snapshot age in days: exit code 1 when
the age exceeds 60 days, exit code 0 with a warning when it exceeds 30 but
not 60, and exit code 0 without a warning when it is at most 30. -/
theorem C3_age_thresholds (today : Date) (fs : FS) (snap : Date)
    (hparse : (parseSnapshotDateSt fs).1 = .ok snap)
    (hall : ∀ lib ∈ LIBRARIES, (fsGet fs (libDir lib ++ "/metadata.json")).isSome = true) :
    (60 < ageDays today snap → (checkSnapshotSt today fs).1.1 = .ok 1) ∧
    (30 < ageDays today snap → ageDays today snap ≤ 60 →
      (checkSnapshotSt today fs).1.1 = .ok 0 ∧
        emitsWarning (checkSnapshotSt today fs).1.2 = true) ∧
    (ageDays today snap ≤ 30 →
      (checkSnapshotSt today fs).1.1 = .ok 0 ∧
        emitsWarning (checkSnapshotSt today fs).1.2 = false) := by
  have hml : (missingLoop LIBRARIES (parseSnapshotDateSt fs).2).1 = [] := by
    rw [parseSnapshotDateSt_fs]
    exact (missingLoop_nil_iff LIBRARIES fs).mpr hall
  have hnowarn : ∀ t : String,
      leadsWith "::warning::".data ("Server library docs snapshot date: " ++ t).data = false := by
    intro t
    rw [String.data_append]
    exact leadsWith_append_false _ (by decide) (by decide)
  have hnowarn2 : ∀ t₁ t₂ : String,
      leadsWith "::warning::".data ("Snapshot age: " ++ t₁ ++ t₂).data = false := by
    intro t₁ t₂
    simp only [String.data_append, List.append_assoc]
    exact leadsWith_append_false _ (by decide) (by decide)
  refine ⟨fun hage => ?_, fun hage hage' => ?_, fun hage => ?_⟩
  · unfold checkSnapshotSt
    simp only [hparse, hml, ne_eq, not_true_eq_false, if_false, FAIL_DAYS, WARNING_DAYS,
      Nat.cast_ofNat]
    rw [if_pos hage]
  · unfold checkSnapshotSt
    simp only [hparse, hml, ne_eq, not_true_eq_false, if_false, FAIL_DAYS, WARNING_DAYS,
      Nat.cast_ofNat]
    rw [if_neg (by omega), if_pos hage]
    refine ⟨rfl, emitsWarning_of_mem (l :=
      "::warning::Server library docs snapshot is older than " ++ natToDec 30 ++
        " days. Please refresh with `make docs-sync-server-libs`.") (by simp) ?_⟩
    rw [String.data_append, String.data_append]
    rw [List.append_assoc]
    exact leadsWith_append_true _ (by decide)
  · unfold checkSnapshotSt
    simp only [hparse, hml, ne_eq, not_true_eq_false, if_false, FAIL_DAYS, WARNING_DAYS,
      Nat.cast_ofNat]
    rw [if_neg (by omega), if_neg (by omega)]
    refine ⟨rfl, emitsWarning_false ?_⟩
    intro l hl
    simp only [List.mem_cons, List.not_mem_nil, or_false] at hl
    rcases hl with rfl | rfl
    · exact hnowarn _
    · exact hnowarn2 _ _

/-- **C3 witness**: concrete fresh snapshot (11 days old): exit 0, no
warning. -/
theorem C3_witness :
    (checkSnapshotSt ⟨2026, 10, 12⟩ (sampleFS ⟨2026, 10, 1⟩)).1.1 = .ok 0 ∧
      emitsWarning (checkSnapshotSt ⟨2026, 10, 12⟩ (sampleFS ⟨2026, 10, 1⟩)).1.2 = false :=
  (C3_age_thresholds ⟨2026, 10, 12⟩ (sampleFS ⟨2026, 10, 1⟩) ⟨2026, 10, 1⟩
    rfl (by decide)).2.2 (by decide)

/-- **C4**: with downloading enabled, a failed fetch of either documentation
page does not abort the sync of that library: a `DOWNLOAD_STATUS.txt` write
records the error message of each failed page, and `metadata.json` is still
written.  (`sync_library` is a total function here because `try_download`
catches the `URLError` itself.) -/
theorem C4_download_failure_recorded (net : Net) (lib : Library) (version : String)
    (hfail : (net (docsRsCrateUrl lib version)).1 = false ∨
             (net (docsRsRustdocUrl lib version)).1 = false) :
    (∃ body,
      (libDir lib ++ "/DOWNLOAD_STATUS.txt", body) ∈ (syncLibrary net lib version true).writes ∧
      ((net (docsRsCrateUrl lib version)).1 = false →
        (net (docsRsCrateUrl lib version)).2.data <:+: body.data) ∧
      ((net (docsRsRustdocUrl lib version)).1 = false →
        (net (docsRsRustdocUrl lib version)).2.data <:+: body.data)) ∧
    (libDir lib ++ "/metadata.json", jsonRender ((syncLibrary net lib version true).metadata)) ∈
      (syncLibrary net lib version true).writes := by
  cases hc : (net (docsRsCrateUrl lib version)).1 with
  | false =>
    cases hr : (net (docsRsRustdocUrl lib version)).1 with
    | false =>
      refine ⟨⟨downloadStatusText false (net (docsRsCrateUrl lib version)).2
          false (net (docsRsRustdocUrl lib version)).2, ?_, fun _ => ?_, fun _ => ?_⟩, ?_⟩
      · simp [syncLibrary, hc, hr]
      · refine ⟨("Unable to download docs.rs pages in this environment.\n" ++
          "crate_page=").data, ("\n" ++ ("rustdoc_page=" ++
            ((net (docsRsRustdocUrl lib version)).2 ++ "\n"))).data, ?_⟩
        simp [downloadStatusText, List.append_assoc]
      · refine ⟨("Unable to download docs.rs pages in this environment.\n" ++
          ("crate_page=" ++ ((net (docsRsCrateUrl lib version)).2 ++
            ("\n" ++ "rustdoc_page=")))).data, ("\n" : String).data, ?_⟩
        simp [downloadStatusText, List.append_assoc]
      · simp [syncLibrary, hc, hr]
    | true =>
      refine ⟨⟨downloadStatusText false (net (docsRsCrateUrl lib version)).2 true "ok",
          ?_, fun _ => ?_, fun hco => ?_⟩, ?_⟩
      · simp [syncLibrary, hc, hr, downloadStatusText]
      · refine ⟨("Unable to download docs.rs pages in this environment.\n" ++
          "crate_page=").data, ("\n" ++ ("rustdoc_page=" ++ ("ok" ++ "\n"))).data, ?_⟩
        simp [downloadStatusText, List.append_assoc]
      · cases hco
      · simp [syncLibrary, hc, hr]
  | true =>
    cases hr : (net (docsRsRustdocUrl lib version)).1 with
    | false =>
      refine ⟨⟨downloadStatusText true "ok" false (net (docsRsRustdocUrl lib version)).2,
          ?_, fun hco => ?_, fun _ => ?_⟩, ?_⟩
      · simp [syncLibrary, hc, hr, downloadStatusText]
      · cases hco
      · refine ⟨("Unable to download docs.rs pages in this environment.\n" ++
          ("crate_page=" ++ ("ok" ++ ("\n" ++ "rustdoc_page=")))).data,
          ("\n" : String).data, ?_⟩
        simp [downloadStatusText, List.append_assoc]
      · simp [syncLibrary, hc, hr]
    | true =>
      rw [hc, hr] at hfail
      rcases hfail with h | h <;> cases h

/-- **C4 witness**: with a network oracle on which every fetch fails, syncing
`axum` at `0.7.5` records the error text and still writes metadata. -/
theorem C4_witness :
    ∃ body,
      (libDir ⟨"axum", "axum", "axum"⟩ ++ "/DOWNLOAD_STATUS.txt", body) ∈
        (syncLibrary sampleNetFail ⟨"axum", "axum", "axum"⟩ "0.7.5" true).writes ∧
      ((sampleNetFail (docsRsCrateUrl ⟨"axum", "axum", "axum"⟩ "0.7.5")).1 = false →
        (sampleNetFail (docsRsCrateUrl ⟨"axum", "axum", "axum"⟩ "0.7.5")).2.data <:+: body.data) ∧
      ((sampleNetFail (docsRsRustdocUrl ⟨"axum", "axum", "axum"⟩ "0.7.5")).1 = false →
        (sampleNetFail (docsRsRustdocUrl ⟨"axum", "axum", "axum"⟩ "0.7.5")).2.data <:+: body.data) :=
  (C4_download_failure_recorded sampleNetFail ⟨"axum", "axum", "axum"⟩ "0.7.5"
    (Or.inl rfl)).1

/-- **C5 counterexample**: with downloading disabled (`sync` without
`--download-html`), the metadata record `sync_library` writes contains no
`downloaded` key at all, so it does not contain the download outcome the
claim requires. -/
theorem C5_counterexample :
    ((syncLibrary sampleNetFail ⟨"axum", "axum", "axum"⟩ "0.7.5" false).metadata.all
      (fun kv => kv.1 != "downloaded")) = true := by decide

/-- **C5 amended**: for every tracked library, `sync_library` writes a
`metadata.json` rendering a record that contains the package identifier, the
chosen version and the two documentation URLs; it additionally contains the
download outcome exactly when downloading is enabled. -/
theorem C5_amended_metadata_fields (net : Net) (lib : Library) (version : String)
    (downloadHtml : Bool) :
    ("crate", JVal.str lib.crate) ∈ (syncLibrary net lib version downloadHtml).metadata ∧
    ("version", JVal.str version) ∈ (syncLibrary net lib version downloadHtml).metadata ∧
    ("docs_rs_crate", JVal.str (docsRsCrateUrl lib version)) ∈
      (syncLibrary net lib version downloadHtml).metadata ∧
    ("docs_rs_rustdoc", JVal.str (docsRsRustdocUrl lib version)) ∈
      (syncLibrary net lib version downloadHtml).metadata ∧
    (libDir lib ++ "/metadata.json",
      jsonRender ((syncLibrary net lib version downloadHtml).metadata)) ∈
      (syncLibrary net lib version downloadHtml).writes ∧
    (downloadHtml = true →
      ("downloaded", JVal.bool ((net (docsRsCrateUrl lib version)).1 &&
        (net (docsRsRustdocUrl lib version)).1)) ∈
        (syncLibrary net lib version downloadHtml).metadata) ∧
    (downloadHtml = false →
      ∀ kv ∈ (syncLibrary net lib version downloadHtml).metadata, kv.1 ≠ "downloaded") := by
  cases downloadHtml with
  | false =>
    refine ⟨?_, ?_, ?_, ?_, ?_, ?_, ?_⟩
    · simp [syncLibrary]
    · simp [syncLibrary]
    · simp [syncLibrary]
    · simp [syncLibrary]
    · simp [syncLibrary]
    · intro h; exact absurd h (by decide)
    · intro _ kv hkv
      simp [syncLibrary] at hkv
      rcases hkv with rfl | rfl | rfl | rfl <;> simp
  | true =>
    refine ⟨?_, ?_, ?_, ?_, ?_, ?_, ?_⟩
    · simp [syncLibrary]
    · simp [syncLibrary]
    · simp [syncLibrary]
    · simp [syncLibrary]
    · simp [syncLibrary]
    · intro _; simp [syncLibrary]
    · intro h; exact absurd h (by decide)

/-- **C5 witness**: the amended statement at a concrete library, version,
network oracle and mode. -/
theorem C5_witness :
    ("downloaded", JVal.bool false) ∈
      (syncLibrary sampleNetFail ⟨"axum", "axum", "axum"⟩ "0.7.5" true).metadata :=
  (C5_amended_metadata_fields sampleNetFail ⟨"axum", "axum", "axum"⟩ "0.7.5" true).2.2.2.2.2.1 rfl

set_option maxRecDepth 100000 in
/-- **C1 counterexample**: on a lockfile recording `tokio` at both `1.0.0`
and `1.0.0-alpha`, `parse_cargo_lock_versions` selects `1.0.0-alpha`, which
is not the maximum under semantic-version precedence (the release `1.0.0`
is strictly above it). -/
theorem C1_counterexample :
    parseCargoLockVersions sampleLock =
      .ok [("loco-rs", "0.3.1"), ("axum", "0.7.5"), ("sea-orm", "1.0.0"),
        ("async-graphql", "7.0.0"), ("tokio", "1.0.0-alpha"), ("serde", "1.0.200"),
        ("tracing", "0.1.40"), ("utoipa", "4.2.0")] ∧
    versionsFor sampleLock "tokio" = ["1.0.0", "1.0.0-alpha"] ∧
    ¬ isSemverMaxOf "1.0.0-alpha" (versionsFor sampleLock "tokio") := by
  refine ⟨by rfl, by rfl, by simp only [isSemverMaxOf]; decide⟩

/-- **C1 amended**: for every tracked library the selected version is one of
the versions the lockfile records for that crate and is maximal in the
ordering `semver_key` actually induces — lexicographic on the numeric
triple, then code-point comparison of the pre-release suffix with the empty
suffix least (so a pre-release such as `1.0.0-alpha` sorts above the
corresponding release `1.0.0`, unlike semantic-version precedence). -/
theorem C1_amended_max_by_key (text : String) (m : List (String × String))
    (h : parseCargoLockVersions text = .ok m) :
    ∀ lib ∈ LIBRARIES, ∃ v, m.lookup lib.crate = some v ∧
      v ∈ versionsFor text lib.crate ∧
      ∀ w ∈ versionsFor text lib.crate, verLEb w v = true :=
  collectVersions_ok_spec text LIBRARIES m h

set_option maxRecDepth 100000 in
/-- **C1 witness**: the amended statement evaluated on the concrete
lockfile. -/
theorem C1_witness :
    ∃ v, List.lookup "tokio"
        [("loco-rs", "0.3.1"), ("axum", "0.7.5"), ("sea-orm", "1.0.0"),
         ("async-graphql", "7.0.0"), ("tokio", "1.0.0-alpha"), ("serde", "1.0.200"),
         ("tracing", "0.1.40"), ("utoipa", "4.2.0")] = some v ∧
      v ∈ versionsFor sampleLock "tokio" ∧
      ∀ w ∈ versionsFor sampleLock "tokio", verLEb w v = true :=
  C1_amended_max_by_key sampleLock _ (by rfl) ⟨"tokio", "tokio", "tokio"⟩ (by decide)

/-- **C7**: every version `parse_cargo_lock_versions` extracts occurs in a
lockfile package entry for that crate's name, and a tracked crate with no
package entry makes the operation fail with an error rather than return. -/
theorem C7_extraction_sound (text : String) :
    (∀ m, parseCargoLockVersions text = .ok m →
      ∀ lib ∈ LIBRARIES, ∃ v, m.lookup lib.crate = some v ∧
        (lib.crate, v) ∈ packagesOf text) ∧
    (∀ lib ∈ LIBRARIES, versionsFor text lib.crate = [] →
      ∃ e, parseCargoLockVersions text = .error e) := by
  constructor
  · intro m hm lib hlib
    rcases collectVersions_ok_spec text LIBRARIES m hm lib hlib with ⟨v, hv, hvmem, _⟩
    refine ⟨v, hv, ?_⟩
    rcases List.mem_map.mp hvmem with ⟨p, hpf, hp2⟩
    rcases List.mem_filter.mp hpf with ⟨hpmem, hp1⟩
    have hp : p = (lib.crate, v) := by
      cases p
      simp only [decide_eq_true_eq] at hp1
      simp_all
    exact hp ▸ hpmem
  · intro lib hlib hmiss
    exact collectVersions_error_of_missing text LIBRARIES lib hlib hmiss

set_option maxRecDepth 100000 in
/-- **C7 witness**: on the concrete lockfile lacking any `tokio` entry, the
operation fails with an error. -/
theorem C7_witness :
    ∃ e, parseCargoLockVersions sampleLockMissingTokio = .error e :=
  (C7_extraction_sound sampleLockMissingTokio).2 ⟨"tokio", "tokio", "tokio"⟩
    (by decide) (by decide)


/-! ## String-splitting lemmas for the marker round trip -/

theorem dropWhile_eq_self_of_false {p : Char → Bool} :
    ∀ {l : List Char}, (∀ x ∈ l, p x = false) → l.dropWhile p = l
  | [], _ => rfl
  | x :: xs, h => by
    rw [List.dropWhile_cons, if_neg]
    simp [h x (List.mem_cons_self _ _)]

theorem stripChars_eq_self {l : List Char} (h : ∀ x ∈ l, isSpaceCh x = false) :
    stripChars l = l := by
  unfold stripChars
  rw [dropWhile_eq_self_of_false h,
    dropWhile_eq_self_of_false (fun x hx => h x (List.mem_reverse.mp hx)),
    List.reverse_reverse]

theorem splitOnChar_append_cons (c : Char) {l₁ : List Char} (h : c ∉ l₁) (l₂ : List Char) :
    splitOnChar c (l₁ ++ c :: l₂) = l₁ :: splitOnChar c l₂ := by
  induction l₁ with
  | nil => simp [splitOnChar]
  | cons x xs ih =>
    have hx : ¬ x = c := by rintro rfl; exact h (List.mem_cons_self _ _)
    have h' : c ∉ xs := fun hc => h (List.mem_cons_of_mem _ hc)
    simp only [List.cons_append, splitOnChar, if_neg hx, List.append_eq]
    rw [ih h']

theorem splitOnChar_not_mem {c : Char} {l : List Char} (h : c ∉ l) :
    splitOnChar c l = [l] := by
  induction l with
  | nil => rfl
  | cons x xs ih =>
    have hx : ¬ x = c := by rintro rfl; exact h (List.mem_cons_self _ _)
    have h' : c ∉ xs := fun hc => h (List.mem_cons_of_mem _ hc)
    simp only [splitOnChar, if_neg hx]
    rw [ih h']

theorem split1Char_append_cons (c : Char) {l₁ : List Char} (h : c ∉ l₁) (l₂ : List Char) :
    split1Char c (l₁ ++ c :: l₂) = (l₁, some l₂) := by
  induction l₁ with
  | nil => simp [split1Char]
  | cons x xs ih =>
    have hx : ¬ x = c := by rintro rfl; exact h (List.mem_cons_self _ _)
    have h' : c ∉ xs := fun hc => h (List.mem_cons_of_mem _ hc)
    simp only [List.cons_append, split1Char, if_neg hx, List.append_eq]
    rw [ih h']

theorem leadsWith_self_append (a c : List Char) : leadsWith a (a ++ c) = true := by
  induction a with
  | nil => rfl
  | cons x xs ih => simp [leadsWith, ih]

/-- Everything `digitCh` produces for a digit value: a decimal digit that is
not whitespace, a newline, a separator, and whose value round-trips. -/
theorem digit_facts {k : Nat} (h : k < 10) :
    isDigitCh (digitCh k) = true ∧ isSpaceCh (digitCh k) = false ∧
      digitCh k ≠ '\n' ∧ digitCh k ≠ '=' ∧ digitVal (digitCh k) = k := by
  interval_cases k <;> decide

theorem iso_data (d : Date) :
    (Date.iso d).data =
      [digitCh (d.year / 1000), digitCh (d.year / 100 % 10), digitCh (d.year / 10 % 10),
       digitCh (d.year % 10), '-', digitCh (d.month / 10), digitCh (d.month % 10), '-',
       digitCh (d.day / 10), digitCh (d.day % 10)] := rfl

theorem date_valid_bounds {d : Date} (hd : d.Valid) :
    1 ≤ d.year ∧ d.year ≤ 9999 ∧ 1 ≤ d.month ∧ d.month ≤ 12 ∧ 1 ≤ d.day ∧ d.day ≤ 31 := by
  have h := hd
  simp only [Date.Valid, Date.validb, Bool.and_eq_true, decide_eq_true_eq] at h
  obtain ⟨⟨⟨⟨⟨h1, h2⟩, h3⟩, h4⟩, h5⟩, h6⟩ := h
  have hdm : daysInMonth d.year d.month ≤ 31 := by
    unfold daysInMonth
    split
    · split <;> omega
    · split <;> omega
  exact ⟨h1, h2, h3, h4, h5, le_trans h6 hdm⟩

theorem iso_chars {d : Date} (hd : d.Valid) :
    ∀ x ∈ (Date.iso d).data, isSpaceCh x = false ∧ x ≠ '\n' ∧ x ≠ '=' := by
  obtain ⟨hy1, hy2, hm1, hm2, hd1, hd2⟩ := date_valid_bounds hd
  rw [iso_data]
  intro x hx
  simp only [List.mem_cons, List.not_mem_nil, or_false] at hx
  rcases hx with rfl|rfl|rfl|rfl|rfl|rfl|rfl|rfl|rfl|rfl
  · exact ⟨(digit_facts (by omega)).2.1, (digit_facts (by omega)).2.2.1,
      (digit_facts (by omega)).2.2.2.1⟩
  · exact ⟨(digit_facts (by omega)).2.1, (digit_facts (by omega)).2.2.1,
      (digit_facts (by omega)).2.2.2.1⟩
  · exact ⟨(digit_facts (by omega)).2.1, (digit_facts (by omega)).2.2.1,
      (digit_facts (by omega)).2.2.2.1⟩
  · exact ⟨(digit_facts (by omega)).2.1, (digit_facts (by omega)).2.2.1,
      (digit_facts (by omega)).2.2.2.1⟩
  · exact ⟨by decide, by decide, by decide⟩
  · exact ⟨(digit_facts (by omega)).2.1, (digit_facts (by omega)).2.2.1,
      (digit_facts (by omega)).2.2.2.1⟩
  · exact ⟨(digit_facts (by omega)).2.1, (digit_facts (by omega)).2.2.1,
      (digit_facts (by omega)).2.2.2.1⟩
  · exact ⟨by decide, by decide, by decide⟩
  · exact ⟨(digit_facts (by omega)).2.1, (digit_facts (by omega)).2.2.1,
      (digit_facts (by omega)).2.2.2.1⟩
  · exact ⟨(digit_facts (by omega)).2.1, (digit_facts (by omega)).2.2.1,
      (digit_facts (by omega)).2.2.2.1⟩

/-- `date.fromisoformat(date.isoformat(d)) == d` for every valid date. -/
theorem dateFromIso_iso {d : Date} (hd : d.Valid) : dateFromIso (Date.iso d).data = some d := by
  obtain ⟨hy1, hy2, hm1, hm2, hd1, hd2⟩ := date_valid_bounds hd
  have h1 : d.year / 1000 < 10 := by omega
  have h2 : d.year / 100 % 10 < 10 := by omega
  have h3 : d.year / 10 % 10 < 10 := by omega
  have h4 : d.year % 10 < 10 := by omega
  have h5 : d.month / 10 < 10 := by omega
  have h6 : d.month % 10 < 10 := by omega
  have h7 : d.day / 10 < 10 := by omega
  have h8 : d.day % 10 < 10 := by omega
  have hy : ((digitVal (digitCh (d.year / 1000)) * 10 + digitVal (digitCh (d.year / 100 % 10))) *
      10 + digitVal (digitCh (d.year / 10 % 10))) * 10 + digitVal (digitCh (d.year % 10)) =
      d.year := by
    rw [(digit_facts h1).2.2.2.2, (digit_facts h2).2.2.2.2, (digit_facts h3).2.2.2.2,
      (digit_facts h4).2.2.2.2]
    omega
  have hm : digitVal (digitCh (d.month / 10)) * 10 + digitVal (digitCh (d.month % 10)) =
      d.month := by
    rw [(digit_facts h5).2.2.2.2, (digit_facts h6).2.2.2.2]; omega
  have hdd : digitVal (digitCh (d.day / 10)) * 10 + digitVal (digitCh (d.day % 10)) = d.day := by
    rw [(digit_facts h7).2.2.2.2, (digit_facts h8).2.2.2.2]; omega
  rw [iso_data]
  simp only [dateFromIso, (digit_facts h1).1, (digit_facts h2).1, (digit_facts h3).1,
    (digit_facts h4).1, (digit_facts h5).1, (digit_facts h6).1, (digit_facts h7).1,
    (digit_facts h8).1, hy, hm, hdd]
  have hval : Date.validb ⟨d.year, d.month, d.day⟩ = true := hd
  simp [hval]


theorem pySplitlines_three (L1 L2 L3 : List Char)
    (h1 : '\n' ∉ L1) (h2 : '\n' ∉ L2) (h3 : '\n' ∉ L3) :
    pySplitlines (L1 ++ '\n' :: (L2 ++ '\n' :: (L3 ++ ['\n']))) = [L1, L2, L3] := by
  have hne : L1 ++ '\n' :: (L2 ++ '\n' :: (L3 ++ ['\n'])) ≠ [] := by
    cases L1 <;> simp
  have hshape : L1 ++ '\n' :: (L2 ++ '\n' :: (L3 ++ ['\n'])) =
      (L1 ++ '\n' :: (L2 ++ '\n' :: L3)) ++ ['\n'] := by
    simp [List.append_assoc]
  have hlast : (L1 ++ '\n' :: (L2 ++ '\n' :: (L3 ++ ['\n']))).getLast? = some '\n' := by
    rw [hshape]; exact List.getLast?_concat _
  unfold pySplitlines
  rw [if_neg hne, if_pos hlast]
  rw [splitOnChar_append_cons _ h1, splitOnChar_append_cons _ h2,
    splitOnChar_append_cons _ h3]
  simp [splitOnChar]

theorem findSnapshotDate_cons (l : List Char) (rest : List (List Char)) :
    findSnapshotDate (l :: rest) =
      if leadsWith "snapshot_date=".data (stripChars l) = true then
        match dateFromIso (stripChars ((split1Char '=' (stripChars l)).2.getD [])) with
        | some d => .ok d
        | none => .error "Invalid isoformat string"
      else findSnapshotDate rest := rfl

/-- Reading back the marker content `write_version` produces recovers the
date: the slice of `parse_snapshot_date` after the file read. -/
theorem parse_versionFileContent {d : Date} (hd : d.Valid) (mode : Bool) :
    parseSnapshotDate (versionFileContent d mode) = .ok d := by
  have hiso := iso_chars hd
  have hnl2 : '\n' ∉ "snapshot_date=".data ++ (Date.iso d).data := by
    intro hmem
    rcases List.mem_append.mp hmem with hmem | hmem
    · revert hmem; decide
    · exact ((hiso _ hmem).2.1 rfl).elim
  have hnl3 : '\n' ∉ ("source=" ++ modeName mode).data := by
    cases mode <;> decide
  have hdata : (versionFileContent d mode).data =
      "# Server library upstream docs snapshot metadata".data ++ '\n' ::
        (("snapshot_date=".data ++ (Date.iso d).data) ++ '\n' ::
          (("source=" ++ modeName mode).data ++ ['\n'])) := by
    simp [versionFileContent, pyJoin, String.data_append, List.append_assoc,
      show ("\n" : String).data = ['\n'] from rfl, show ("" : String).data = [] from rfl]
  have hstrip1 : stripChars "# Server library upstream docs snapshot metadata".data =
      "# Server library upstream docs snapshot metadata".data := by decide
  have hlw1 : leadsWith "snapshot_date=".data
      "# Server library upstream docs snapshot metadata".data = false := by decide
  have hline2 : stripChars ("snapshot_date=".data ++ (Date.iso d).data) =
      "snapshot_date=".data ++ (Date.iso d).data := by
    apply stripChars_eq_self
    intro x hx
    rcases List.mem_append.mp hx with hx | hx
    · exact (by decide : ∀ y ∈ ("snapshot_date=".data : List Char), isSpaceCh y = false) x hx
    · exact (hiso x hx).1
  have hlw2 : leadsWith "snapshot_date=".data
      ("snapshot_date=".data ++ (Date.iso d).data) = true := leadsWith_self_append _ _
  have hsplit : split1Char '=' ("snapshot_date=".data ++ (Date.iso d).data) =
      ("snapshot_date".data, some (Date.iso d).data) := by
    rw [show ("snapshot_date=".data : List Char) = "snapshot_date".data ++ ['='] by decide,
      List.append_assoc, List.singleton_append]
    exact split1Char_append_cons '=' (by decide) _
  have hstrip3 : stripChars (Date.iso d).data = (Date.iso d).data :=
    stripChars_eq_self (fun x hx => (hiso x hx).1)
  unfold parseSnapshotDate
  rw [hdata, pySplitlines_three _ _ _ (by decide) hnl2 hnl3,
    findSnapshotDate_cons, hstrip1, if_neg (by simp [hlw1]),
    findSnapshotDate_cons, hline2, if_pos hlw2, hsplit]
  simp only [Option.getD_some, hstrip3, dateFromIso_iso hd]

/-- **C8**: round-trip of the snapshot marker: for every starting file
system, every (valid) date and every mode flag, after `write_version(d,
mode)` the function `parse_snapshot_date` returns exactly `d`. -/
theorem C8_marker_roundtrip (fs : FS) (d : Date) (mode : Bool) (hd : d.Valid) :
    (parseSnapshotDateSt (fsSet fs VERSION_FILE (versionFileContent d mode))).1 = .ok d := by
  have hget : fsGet (fsSet fs VERSION_FILE (versionFileContent d mode)) VERSION_FILE =
      some (versionFileContent d mode) := by
    simp [fsGet, fsSet]
  simp [parseSnapshotDateSt, hget, parse_versionFileContent hd mode]

/-- **C8 witness**: the round trip evaluated at 2026-10-12 with the
`--download-html` mode flag, on the empty file system. -/
theorem C8_witness :
    (parseSnapshotDateSt (fsSet [] VERSION_FILE (versionFileContent ⟨2026, 10, 12⟩ true))).1 =
      .ok ⟨2026, 10, 12⟩ :=
  C8_marker_roundtrip [] ⟨2026, 10, 12⟩ true (by rfl)


/-! ## Lemmas for the zero-padding property of `semver_key` -/

theorem not_mem_joinChar {c sep : Char} (hcs : c ≠ sep) :
    ∀ {ps : List (List Char)}, (∀ p ∈ ps, c ∉ p) → c ∉ joinChar sep ps
  | [], _ => by simp [joinChar]
  | [p], h => by simpa [joinChar] using h p (List.mem_cons_self _ _)
  | p :: q :: rest, h => by
    rw [joinChar]
    intro hmem
    rcases List.mem_append.mp hmem with hp | hp
    · exact h p (List.mem_cons_self _ _) hp
    · rcases List.mem_cons.mp hp with rfl | hp
      · exact hcs rfl
      · exact not_mem_joinChar hcs (fun r hr => h r (List.mem_cons_of_mem _ hr)) hp

theorem splitOnChar_joinChar (c : Char) :
    ∀ (ps : List (List Char)), ps ≠ [] → (∀ p ∈ ps, c ∉ p) →
      splitOnChar c (joinChar c ps) = ps
  | [], h, _ => absurd rfl h
  | [p], _, h => by
    rw [joinChar]
    exact splitOnChar_not_mem (h p (List.mem_cons_self _ _))
  | p :: q :: rest, _, h => by
    rw [joinChar, splitOnChar_append_cons c (h p (List.mem_cons_self _ _)) _,
      splitOnChar_joinChar c (q :: rest) (by simp)
        (fun r hr => h r (List.mem_cons_of_mem _ hr))]

theorem mapM_parseDecNat_some :
    ∀ {ps : List (List Char)}, (∀ p ∈ ps, p ≠ [] ∧ p.all isDigitCh = true) →
      ∃ vals, ps.mapM parseDecNat = some vals ∧ vals.length = ps.length := by
  intro ps
  induction ps with
  | nil => exact fun _ => ⟨[], rfl, rfl⟩
  | cons p rest ih =>
    intro h
    have hp := h p (List.mem_cons_self _ _)
    obtain ⟨vals, hvals, hlen⟩ := ih (fun q hq => h q (List.mem_cons_of_mem _ hq))
    refine ⟨p.foldl (fun acc ch => acc * 10 + digitVal ch) 0 :: vals, ?_, by simp [hlen]⟩
    have hparse : parseDecNat p = some (p.foldl (fun acc ch => acc * 10 + digitVal ch) 0) := by
      simp [parseDecNat, hp.1, hp.2]
    rw [List.mapM_cons, hparse, hvals]
    rfl

theorem mapM_parseDecNat_replicate (n : Nat) :
    (List.replicate n (['0'] : List Char)).mapM parseDecNat = some (List.replicate n 0) := by
  induction n with
  | zero => rfl
  | succ k ih =>
    rw [List.replicate_succ, List.replicate_succ, List.mapM_cons,
      show parseDecNat ['0'] = some 0 from by decide, ih]
    rfl

theorem mapM_parseDecNat_append {ps qs : List (List Char)} {vs ws : List Nat}
    (h1 : ps.mapM parseDecNat = some vs) (h2 : qs.mapM parseDecNat = some ws) :
    (ps ++ qs).mapM parseDecNat = some (vs ++ ws) := by
  rw [List.mapM_append, h1, h2]
  rfl


theorem split1Char_not_mem {c : Char} {l : List Char} (h : c ∉ l) :
    split1Char c l = (l, none) := by
  induction l with
  | nil => rfl
  | cons x xs ih =>
    have hx : ¬ x = c := by rintro rfl; exact h (List.mem_cons_self _ _)
    have h' : c ∉ xs := fun hc => h (List.mem_cons_of_mem _ hc)
    simp only [split1Char, if_neg hx, ih h']

/-- **C9**: `semver_key` zero-pads short versions: when the part of the
version before the first `-` consists of one, two or three dot-separated
nonempty decimal components, its key equals the key of the version padded
with `.0` components to exactly three, keeping the same pre-release suffix —
so for example `1.2` and `1.2.0` receive equal keys and are ordered
identically. -/
theorem C9_zero_padding (v : String)
    (hk : 1 ≤ (splitOnChar '.' (split1Char '-' v.data).1).length ∧
      (splitOnChar '.' (split1Char '-' v.data).1).length ≤ 3)
    (hdigits : ∀ p ∈ splitOnChar '.' (split1Char '-' v.data).1,
      p ≠ [] ∧ p.all isDigitCh = true) :
    semverKey v = semverKey (String.mk
      (joinChar '.' (splitOnChar '.' (split1Char '-' v.data).1 ++
        List.replicate (3 - (splitOnChar '.' (split1Char '-' v.data).1).length) ['0']) ++
       (match (split1Char '-' v.data).2 with
        | some suf => '-' :: suf
        | none => []))) := by
  obtain ⟨hk1, hk3⟩ := hk
  obtain ⟨vals, hvals, hlen⟩ := mapM_parseDecNat_some hdigits
  have hcomp : ∀ p ∈ splitOnChar '.' (split1Char '-' v.data).1 ++
      List.replicate (3 - (splitOnChar '.' (split1Char '-' v.data).1).length) ['0'],
      '.' ∉ p ∧ '-' ∉ p := by
    intro p hp
    rcases List.mem_append.mp hp with hp | hp
    · constructor <;> intro hc <;>
        · have hd := List.all_eq_true.mp (hdigits p hp).2 _ hc
          revert hd; decide
    · rw [List.eq_of_mem_replicate hp]
      constructor <;> decide
  have hminus : '-' ∉ joinChar '.' (splitOnChar '.' (split1Char '-' v.data).1 ++
      List.replicate (3 - (splitOnChar '.' (split1Char '-' v.data).1).length) ['0']) :=
    not_mem_joinChar (by decide) (fun p hp => (hcomp p hp).2)
  have hne : splitOnChar '.' (split1Char '-' v.data).1 ++
      List.replicate (3 - (splitOnChar '.' (split1Char '-' v.data).1).length) ['0'] ≠ [] := by
    intro h0
    rcases List.append_eq_nil.mp h0 with ⟨h1, _⟩
    rw [h1] at hk1
    simp at hk1
  have hsplitJ := splitOnChar_joinChar '.' _ hne (fun p hp => (hcomp p hp).1)
  have hmap2 : (splitOnChar '.' (split1Char '-' v.data).1 ++
      List.replicate (3 - (splitOnChar '.' (split1Char '-' v.data).1).length) ['0']).mapM
        parseDecNat =
      some (vals ++ List.replicate (3 - (splitOnChar '.' (split1Char '-' v.data).1).length) 0) :=
    mapM_parseDecNat_append hvals (mapM_parseDecNat_replicate _)
  have hlen2 : (vals ++ List.replicate
      (3 - (splitOnChar '.' (split1Char '-' v.data).1).length) 0).length = 3 := by
    simp [hlen]
    omega
  have hpad0 : List.replicate (3 - (vals ++ List.replicate
      (3 - (splitOnChar '.' (split1Char '-' v.data).1).length) 0).length) (0 : Nat) = [] := by
    rw [hlen2]
    rfl
  cases hsuf : (split1Char '-' v.data).2 with
  | none =>
    simp only [List.append_nil]
    simp only [semverKey, hvals, hsuf, split1Char_not_mem hminus, hsplitJ, hmap2,
      hpad0, List.append_nil, hlen, Option.getD_none]
  | some suf =>
    simp only [semverKey, hvals, hsuf, split1Char_append_cons '-' hminus suf, hsplitJ,
      hmap2, hpad0, List.append_nil, hlen, Option.getD_some]


/-- **C9 witness**: the claim's example: `1.2` and `1.2.0` receive equal
keys. -/
theorem C9_witness : semverKey "1.2" = semverKey "1.2.0" := by
  rw [C9_zero_padding "1.2" (by decide) (by decide)]
  rfl


/-! ## Lemmas for the status artifacts of `sync_snapshot` -/

theorem leadsWith_append_same (a b c : List Char) :
    leadsWith (a ++ b) (a ++ c) = leadsWith b c := by
  induction a with
  | nil => rfl
  | cons x xs ih => simp [leadsWith, ih]

theorem isLibraryWrite_VERSION (body : String) :
    isLibraryWrite (VERSION_FILE, body) = false := by
  simp only [isLibraryWrite]
  decide

theorem isLibraryWrite_INDEX (body : String) :
    isLibraryWrite (INDEX_FILE, body) = false := by
  simp only [isLibraryWrite]
  decide

theorem syncLibrary_record (net : Net) (lib : Library) (v : String) (dh : Bool) :
    (syncLibrary net lib v dh).record =
      ⟨lib.slug, lib.crate, v, docsRsCrateUrl lib v, docsRsRustdocUrl lib v⟩ := by
  cases dh <;> simp [syncLibrary]

/-- Every file `sync_library` writes lies in that library's snapshot
directory. -/
theorem syncLibrary_writes_lib {lib : Library} (hlib : lib ∈ LIBRARIES)
    (net : Net) (v : String) (dh : Bool) :
    ∀ w ∈ (syncLibrary net lib v dh).writes, isLibraryWrite w = true := by
  have hpath : ∀ (tail body : String), leadsWith "/".data tail.data = true →
      isLibraryWrite (libDir lib ++ tail, body) = true := by
    intro tail body hstart
    simp only [isLibraryWrite, List.any_eq_true]
    refine ⟨lib, hlib, ?_⟩
    rw [String.data_append, String.data_append, leadsWith_append_same]
    exact hstart
  intro w hw
  cases dh with
  | false =>
    simp [syncLibrary] at hw
    subst hw
    exact hpath _ _ (by decide)
  | true =>
    cases hc : (net (docsRsCrateUrl lib v)).1 <;>
      cases hr : (net (docsRsRustdocUrl lib v)).1 <;>
      simp [syncLibrary, hc, hr] at hw
    · rcases hw with rfl | rfl
      · exact hpath _ _ (by decide)
      · exact hpath _ _ (by decide)
    · rcases hw with rfl | rfl | rfl
      · exact hpath _ _ (by decide)
      · exact hpath _ _ (by decide)
      · exact hpath _ _ (by decide)
    · rcases hw with rfl | rfl | rfl
      · exact hpath _ _ (by decide)
      · exact hpath _ _ (by decide)
      · exact hpath _ _ (by decide)
    · rcases hw with rfl | rfl | rfl
      · exact hpath _ _ (by decide)
      · exact hpath _ _ (by decide)
      · exact hpath _ _ (by decide)

/-- Every element of a `"\n".join` is an infix of the joined string. -/
theorem mem_pyJoin_infix (sep : String) :
    ∀ (l : List String) (x : String), x ∈ l → x.data <:+: (pyJoin sep l).data := by
  intro l
  induction l with
  | nil => intro x hx; cases hx
  | cons s t ih =>
    intro x hx
    cases t with
    | nil =>
      simp only [List.mem_singleton] at hx
      subst hx
      exact List.infix_refl _
    | cons s2 t2 =>
      rcases List.mem_cons.mp hx with rfl | hx'
      · refine ⟨[], (sep ++ pyJoin sep (s2 :: t2)).data, ?_⟩
        simp [pyJoin, String.data_append, List.append_assoc]
      · refine (ih x hx').trans ⟨(s ++ sep).data, [], ?_⟩
        simp [pyJoin, String.data_append, List.append_assoc]


set_option maxRecDepth 100000 in
/-- **C6**: a successful sync writes exactly two status artifacts beyond the
per-library records: the dated `VERSION` marker, whose content carries the
snapshot date and the sync mode, and the `README.md` Markdown index, which
contains for every tracked library a table row with its version and its two
documentation links. -/
theorem C6_sync_status_artifacts (text : String) (today : Date) (net : Net)
    (downloadHtml : Bool) (ws : List (String × String))
    (h : syncSnapshot (some text) today net downloadHtml = .ok ws) :
    ∃ vc ic,
      ws.filter (fun w => !(isLibraryWrite w)) = [(VERSION_FILE, vc), (INDEX_FILE, ic)] ∧
      vc = versionFileContent today downloadHtml ∧
      today.iso.data <:+: vc.data ∧
      (modeName downloadHtml).data <:+: vc.data ∧
      ∀ lib ∈ LIBRARIES, ∃ version, version ∈ versionsFor text lib.crate ∧
        (indexRow ⟨lib.slug, lib.crate, version, docsRsCrateUrl lib version,
          docsRsRustdocUrl lib version⟩).data <:+: ic.data := by
  cases hv : parseCargoLockVersions text with
  | error e =>
    simp only [syncSnapshot, hv] at h
    cases h
  | ok versions =>
    simp only [syncSnapshot, hv] at h
    injection h with h
    subst h
    refine ⟨versionFileContent today downloadHtml,
      indexContent today ((LIBRARIES.map (fun lib => syncLibrary net lib
        ((versions.lookup lib.crate).getD "") downloadHtml)).map LibSyncOut.record)
        downloadHtml, ?_, rfl, ?_, ?_, ?_⟩
    · have hflat : ((LIBRARIES.map (fun lib => syncLibrary net lib
          ((versions.lookup lib.crate).getD "") downloadHtml)).map
            LibSyncOut.writes).flatten.filter (fun w => !(isLibraryWrite w)) = [] := by
        rw [List.filter_eq_nil_iff]
        intro w hw
        rcases List.mem_flatten.mp hw with ⟨lw, hlw, hwlw⟩
        rcases List.mem_map.mp hlw with ⟨out, hout, rfl⟩
        rcases List.mem_map.mp hout with ⟨lib, hlib, rfl⟩
        have hl := syncLibrary_writes_lib hlib net _ downloadHtml w hwlw
        simp [hl]
      rw [List.filter_append, hflat, List.nil_append]
      simp [List.filter, isLibraryWrite_VERSION, isLibraryWrite_INDEX]
    · refine List.IsInfix.trans (⟨"snapshot_date=".data, [], by simp⟩ :
        today.iso.data <:+: ("snapshot_date=" ++ today.iso).data) ?_
      exact mem_pyJoin_infix "\n" _ _ (by simp [versionFileContent])
    · refine List.IsInfix.trans (⟨"source=".data, [], by simp⟩ :
        (modeName downloadHtml).data <:+: ("source=" ++ modeName downloadHtml).data) ?_
      exact mem_pyJoin_infix "\n" _ _ (by simp [versionFileContent])
    · intro lib hlib
      obtain ⟨v, hvlook, hvmem, _⟩ :=
        collectVersions_ok_spec text LIBRARIES versions hv lib hlib
      refine ⟨v, hvmem, ?_⟩
      have hrecmem : (⟨lib.slug, lib.crate, v, docsRsCrateUrl lib v, docsRsRustdocUrl lib v⟩ :
          SyncRecord) ∈ (LIBRARIES.map (fun l => syncLibrary net l
            ((versions.lookup l.crate).getD "") downloadHtml)).map LibSyncOut.record := by
        rw [List.map_map]
        refine List.mem_map.mpr ⟨lib, hlib, ?_⟩
        simp [Function.comp, syncLibrary_record, hvlook]
      have hrowmem : indexRow ⟨lib.slug, lib.crate, v, docsRsCrateUrl lib v,
          docsRsRustdocUrl lib v⟩ ∈ ((LIBRARIES.map (fun l => syncLibrary net l
            ((versions.lookup l.crate).getD "") downloadHtml)).map LibSyncOut.record).map
              indexRow :=
        List.mem_map.mpr ⟨_, hrecmem, rfl⟩
      have hrow := mem_pyJoin_infix "\n" _ _ hrowmem
      refine List.IsInfix.trans hrow ?_
      refine ⟨("# Upstream snapshots for server core libraries\n\n" ++
        "Этот каталог фиксирует **свежие ссылки на документацию** по ключевым библиотекам сервера.\n\n" ++
        "- Источник версий: `Cargo.lock`\n" ++
        "- Дата snapshot: `" ++ today.iso ++ "`\n" ++
        "- Обновление: `make docs-sync-server-libs`\n" ++
        "- Проверка свежести: `make docs-check-server-libs`\n" ++
        "- Режим: `" ++ modeNote downloadHtml ++ "`\n\n" ++
        "## Текущие версии и ссылки\n\n" ++
        "| Crate | Version (`Cargo.lock`) | Docs.rs crate page | Rustdoc index | Local metadata |\n" ++
        "|---|---:|---|---|---|\n").data,
        ("\n\n" ++ "Для попытки скачать HTML-копии docs.rs используйте:\n\n" ++
         "```bash\npython3 scripts/server_library_docs_sync.py sync --download-html\n```\n").data,
        ?_⟩
      simp [indexContent, String.data_append, List.append_assoc]


set_option maxRecDepth 1000000 in
/-- **C6 witness**: the theorem applied to the concrete lockfile, date and
(failing) network oracle, in plain link mode. -/
theorem C6_witness :
    ∃ vc ic,
      ((syncSnapshot (some sampleLock) ⟨2026, 10, 12⟩ sampleNetFail false).toOption.getD
          []).filter (fun w => !(isLibraryWrite w)) =
        [(VERSION_FILE, vc), (INDEX_FILE, ic)] ∧
      vc = versionFileContent ⟨2026, 10, 12⟩ false ∧
      (Date.iso ⟨2026, 10, 12⟩).data <:+: vc.data ∧
      (modeName false).data <:+: vc.data ∧
      ∀ lib ∈ LIBRARIES, ∃ version, version ∈ versionsFor sampleLock lib.crate ∧
        (indexRow ⟨lib.slug, lib.crate, version, docsRsCrateUrl lib version,
          docsRsRustdocUrl lib version⟩).data <:+: ic.data :=
  C6_sync_status_artifacts sampleLock ⟨2026, 10, 12⟩ sampleNetFail false _ (by rfl)

end DocsSync
